import Mathlib

/-!
# Verification of the call-backend server (MongoDB and SQLite variants)

Shallow embedding of the two server implementations:
* `server.js` — the MongoDB/mongoose variant;
* the SQLite variant (sqlite3, `call_logs.db`).

Records are embedded as structures with `Option` fields where the
JavaScript value may be `undefined`/`null`; JavaScript truthiness tests
(`if (x)`, `x || y`) are modelled explicitly, with the empty string and
the number `0` falsy.
-/

namespace CallBackend

/-- JavaScript truthiness of a string-or-undefined value:
`undefined` and the empty string are falsy. -/
def truthyStr : Option String → Bool
  | none => false
  | some s => s != ""

/-- JavaScript `a || b` where `a` is a string or undefined. -/
def jsOrStr : Option String → String → String
  | none, b => b
  | some s, b => if s = "" then b else s

/-- JavaScript `a || b` where `a` is a number or undefined
(`0` is falsy). -/
def jsOrInt : Option Int → Int → Int
  | none, b => b
  | some n, b => if n = 0 then b else n

/-- A device row: `devices` table (SQLite) / `Device` model (mongoose).
`deviceId` is the primary key; the other fields are nullable. -/
structure Device where
  deviceId : String
  deviceName : Option String
  phoneNumber : Option String
  registeredAt : Option Int
  lastHeartbeat : Option Int
  deriving DecidableEq, Repr

/-- A call-log record as submitted inside the `callLogs` array of a
`POST /api/call-logs/sync` body: every field may be absent. -/
structure LogSubmission where
  id : Option String
  phoneNumber : Option String
  contactName : Option String
  callType : Option String
  callDate : Option Int
  callDuration : Option Int
  timestamp : Option Int
  deriving DecidableEq, Repr

/-- A stored call-log row: `call_logs` table (SQLite) / `CallLog` model
(mongoose). After ingestion `id` and `timestamp` always carry values
(the handlers default them); the remaining fields are nullable. -/
structure CallLog where
  id : String
  deviceId : Option String
  phoneNumber : Option String
  contactName : Option String
  callType : Option String
  callDate : Option Int
  callDuration : Option Int
  timestamp : Int
  deriving DecidableEq, Repr

/-- The synthesized identity for a record lacking an `id`:
both variants build the template string from `Date.now()` and a random
component (SQLite: `Math.floor(Math.random() * 1000)`); we make the
observed time and random draw explicit parameters. -/
def synthId (now : Int) (rand : Nat) : String :=
  toString now ++ "_" ++ toString rand

/-- SQLite sync, per record: the row bound into
`INSERT OR REPLACE INTO call_logs` — `log.id || synth`, the batch-level
`deviceId`, the submitted fields, `log.timestamp || Date.now()`. -/
def sqliteMaterialize (deviceId : Option String) (now : Int) (rand : Nat)
    (log : LogSubmission) : CallLog :=
  { id := jsOrStr log.id (synthId now rand)
    deviceId := deviceId
    phoneNumber := log.phoneNumber
    contactName := log.contactName
    callType := log.callType
    callDate := log.callDate
    callDuration := log.callDuration
    timestamp := jsOrInt log.timestamp now }

/-- The `filter` of the MongoDB bulk `updateOne`:
`{ id: log.id || Date.now() + "_" + Math.random() }`. -/
def mongoUpsertKey (log : LogSubmission) (now : Int) (rand : Nat) : String :=
  jsOrStr log.id (synthId now rand)

/-- MongoDB sync, per record, insert path: the document created when
the bulk `updateOne` upsert matches nothing. Mongoose casts the
operator-free update document (`id: log.id`, the batch-level
`deviceId`, …, `timestamp: log.timestamp || Date.now()`) to a `$set`,
stripping keys whose value is `undefined`. When `log.id` is undefined
the stripped `$set` leaves `id` to be inherited from the synthesized
value in the filter's equality clause; when `log.id` is a defined
string (even the empty string) the `$set` stores it verbatim. -/
def mongoMaterialize (deviceId : Option String) (now : Int) (rand : Nat)
    (log : LogSubmission) : CallLog :=
  { id := match log.id with
          | none => synthId now rand
          | some s => s
    deviceId := deviceId
    phoneNumber := log.phoneNumber
    contactName := log.contactName
    callType := log.callType
    callDate := log.callDate
    callDuration := log.callDuration
    timestamp := jsOrInt log.timestamp now }

/-- One field of the Mongoose `$set` document applied to an existing
document: a defined submission value overwrites the stored one; an
`undefined` value is stripped from the `$set`, so the stored document
retains its prior value. -/
def setField {α : Type} (new : Option α) (old : Option α) : Option α :=
  match new with
  | none => old
  | some v => some v

/-- MongoDB sync, per record, update path: the result of the bulk
`updateOne` on an existing document. Mongoose casts the operator-free
update document to a `$set` with `undefined` keys stripped, so each
field absent from the submission retains the stored document's prior
value (merge, not full replacement), while `timestamp`
(`log.timestamp || Date.now()`) is always defined and always set. -/
def mongoSetMerge (old : CallLog) (deviceId : Option String) (now : Int)
    (log : LogSubmission) : CallLog :=
  { id := match log.id with
          | none => old.id
          | some s => s
    deviceId := setField deviceId old.deviceId
    phoneNumber := setField log.phoneNumber old.phoneNumber
    contactName := setField log.contactName old.contactName
    callType := setField log.callType old.callType
    callDate := setField log.callDate old.callDate
    callDuration := setField log.callDuration old.callDuration
    timestamp := jsOrInt log.timestamp now }

/-- One MongoDB bulk `updateOne` with upsert: if a stored document
matches the filter `{id: log.id || synth}`, the stripped `$set` merge
is applied to it; otherwise a new document is inserted
(`mongoMaterialize`). -/
def mongoUpsertOne (store : List CallLog) (deviceId : Option String)
    (now : Int) (rand : Nat) (log : LogSubmission) : List CallLog :=
  if store.any (fun x => x.id == mongoUpsertKey log now rand) then
    store.map (fun x =>
      if x.id == mongoUpsertKey log now rand then
        mongoSetMerge x deviceId now log
      else x)
  else store ++ [mongoMaterialize deviceId now rand log]

/-- Upsert keyed by `id` with full replacement: SQLite
`INSERT OR REPLACE` deletes any row with the conflicting primary key
and inserts the new row. The MongoDB `updateOne` upsert agrees with
this only on the insert path (no stored document with this `id`); its
update of an existing document is a `$set` merge, `mongoUpsertOne`. -/
def upsertCallLog (store : List CallLog) (r : CallLog) : List CallLog :=
  store.filter (fun x => x.id != r.id) ++ [r]

/-- Apply a batch of already-materialized records as successive
upserts, in order. -/
def applyUpserts (store : List CallLog) (rs : List CallLog) : List CallLog :=
  rs.foldl upsertCallLog store

/-- Materialize a whole `callLogs` batch: record `i` observes the
server time and random draw `env[i]`. -/
def materializeBatch (mat : Int → Nat → LogSubmission → CallLog)
    (env : List (Int × Nat)) (logs : List LogSubmission) : List CallLog :=
  (logs.zip env).map (fun p => mat p.2.1 p.2.2 p.1)

/-- `POST /api/call-logs/sync`, SQLite variant: each record of the
batch is materialized and applied by `INSERT OR REPLACE`, in order. -/
def sqliteSync (deviceId : Option String) (env : List (Int × Nat))
    (logs : List LogSubmission) (store : List CallLog) : List CallLog :=
  applyUpserts store (materializeBatch (sqliteMaterialize deviceId) env logs)

/-- `POST /api/call-logs/sync`, MongoDB variant, on the fresh-key
path: the `bulkWrite` of `updateOne` upserts applied in order, where
each record's filter key matches no stored document, so every
`updateOne` takes the insert path and stores `mongoMaterialize` of the
record (on that path `upsertCallLog` is a plain append and agrees with
`mongoUpsertOne`). The theorems using this definition force that path
through their hypotheses (batches of id-less records with fresh
synthesized keys against an empty store); the general per-record
`updateOne`, including the `$set` merge on an existing document, is
`mongoUpsertOne`. -/
def mongoSync (deviceId : Option String) (env : List (Int × Nat))
    (logs : List LogSubmission) (store : List CallLog) : List CallLog :=
  applyUpserts store (materializeBatch (mongoMaterialize deviceId) env logs)

/-- No two stored call logs share an `id`. -/
def uniqueIds (store : List CallLog) : Prop :=
  (store.map CallLog.id).Nodup

instance (store : List CallLog) : Decidable (uniqueIds store) := by
  unfold uniqueIds; infer_instance

/-! ## HTTP routing tables -/

/-- HTTP methods used by the two servers. -/
inductive Method where
  | GET | POST | DELETE
  deriving DecidableEq, Repr

/-- A registered Express route: method and path pattern. -/
structure Route where
  method : Method
  path : String
  deriving DecidableEq, Repr

/-- Routes registered by the MongoDB variant (`server.js`), in source
order. -/
def mongoRoutes : List Route :=
  [ ⟨Method.POST, "/api/devices/register"⟩,
    ⟨Method.POST, "/api/devices/heartbeat"⟩,
    ⟨Method.GET, "/api/devices"⟩,
    ⟨Method.POST, "/api/call-logs/sync"⟩,
    ⟨Method.GET, "/api/call-logs"⟩,
    ⟨Method.GET, "/api/statistics"⟩,
    ⟨Method.GET, "/"⟩,
    ⟨Method.GET, "/devices"⟩,
    ⟨Method.GET, "/logs/:phoneNumber?"⟩ ]

/-- Routes registered by the SQLite variant, in source order. -/
def sqliteRoutes : List Route :=
  [ ⟨Method.POST, "/api/devices/register"⟩,
    ⟨Method.POST, "/api/devices/heartbeat"⟩,
    ⟨Method.GET, "/api/devices"⟩,
    ⟨Method.POST, "/api/call-logs/sync"⟩,
    ⟨Method.POST, "/api/call-logs"⟩,
    ⟨Method.GET, "/api/call-logs"⟩,
    ⟨Method.GET, "/api/call-logs/number/:phoneNumber"⟩,
    ⟨Method.GET, "/api/statistics"⟩,
    ⟨Method.DELETE, "/api/admin/clear-db"⟩,
    ⟨Method.GET, "/"⟩,
    ⟨Method.GET, "/devices"⟩,
    ⟨Method.GET, "/logs/:phoneNumber?"⟩ ]

/-- The interface table of the specification (section 6): the routes
both storage variants must expose identically. -/
def specInterfaceRoutes : List Route :=
  [ ⟨Method.POST, "/api/devices/register"⟩,
    ⟨Method.POST, "/api/devices/heartbeat"⟩,
    ⟨Method.GET, "/api/devices"⟩,
    ⟨Method.POST, "/api/call-logs/sync"⟩,
    ⟨Method.POST, "/api/call-logs"⟩,
    ⟨Method.GET, "/api/call-logs"⟩,
    ⟨Method.GET, "/api/call-logs/number/:phoneNumber"⟩,
    ⟨Method.GET, "/api/statistics"⟩,
    ⟨Method.DELETE, "/api/admin/clear-db"⟩ ]

/-- The three interface-table routes the MongoDB variant does not
register. -/
def mongoMissingRoutes : List Route :=
  [ ⟨Method.POST, "/api/call-logs"⟩,
    ⟨Method.GET, "/api/call-logs/number/:phoneNumber"⟩,
    ⟨Method.DELETE, "/api/admin/clear-db"⟩ ]

/-! ## Query engine: `GET /api/call-logs` and the per-number lookup -/

/-- The query filter of `GET /api/call-logs`. The string fields model
the query parameters directly (`none` = absent); the date fields model
the already-parsed `parseInt(startDate)` / `parseInt(endDate)` of a
present, truthy parameter (`none` = absent or empty-string). -/
structure Filter where
  deviceId : Option String
  phoneNumber : Option String
  callType : Option String
  startDate : Option Int
  endDate : Option Int
  deriving DecidableEq, Repr

/-- A filter with every field absent. -/
def emptyFilter : Filter :=
  ⟨none, none, none, none, none⟩

/-- The `call_date >= startDate` clause (`$gte`): absent bound is no
constraint; a NULL `call_date` matches no bound, as in SQL
three-valued logic and MongoDB `$gte`. -/
def startClause (bound cd : Option Int) : Bool :=
  match bound, cd with
  | none, _ => true
  | some _, none => false
  | some s, some c => s ≤ c

/-- The `call_date <= endDate` clause (`$lte`). -/
def endClause (bound cd : Option Int) : Bool :=
  match bound, cd with
  | none, _ => true
  | some _, none => false
  | some e, some c => c ≤ e

/-- Whether a stored record matches the filter, as both variants build
it: each truthy query parameter contributes one conjunct (`if
(deviceId) …` / `sql += " AND …"`), plus the two date bounds. -/
def matchesFilter (f : Filter) (l : CallLog) : Bool :=
  (!truthyStr f.deviceId || l.deviceId == f.deviceId) &&
  (!truthyStr f.phoneNumber || l.phoneNumber == f.phoneNumber) &&
  (!truthyStr f.callType || l.callType == f.callType) &&
  startClause f.startDate l.callDate &&
  endClause f.endDate l.callDate

/-- The result ordering `ORDER BY call_date DESC` / `.sort({callDate:
-1})`: a record may precede another when its `call_date` is at least
the other's, with NULL dates last. -/
def callDateGE (a b : CallLog) : Prop :=
  match a.callDate, b.callDate with
  | _, none => True
  | none, some _ => False
  | some x, some y => y ≤ x

instance : DecidableRel callDateGE := fun a b => by
  unfold callDateGE
  rcases a.callDate with _ | x <;> rcases b.callDate with _ | y <;> infer_instance

instance : IsTotal CallLog callDateGE where
  total a b := by
    unfold callDateGE
    rcases ha : a.callDate with _ | x <;> rcases hb : b.callDate with _ | y <;> simp
    exact Int.le_total y x

instance : IsTrans CallLog callDateGE where
  trans a b c hab hbc := by
    unfold callDateGE at *
    rcases ha : a.callDate with _ | x <;> rcases hb : b.callDate with _ | y <;>
      rcases hc : c.callDate with _ | z <;> simp_all
    omega

/-- `GET /api/call-logs`, MongoDB variant:
`CallLog.find(filter).sort({callDate: -1}).limit(limit)`. The returned
rows are the stored documents themselves — no device join. -/
def mongoGetCallLogs (store : List CallLog) (f : Filter) (lim : Nat) :
    List CallLog :=
  ((store.filter (matchesFilter f)).insertionSort callDateGE).take lim

/-- A row of the SQLite queries `SELECT cl.*, d.device_name [, d.phone_number
as device_phone] FROM call_logs cl LEFT JOIN devices d ON cl.device_id =
d.device_id`. -/
structure JoinedRow where
  log : CallLog
  device_name : Option String
  device_phone : Option String
  deriving DecidableEq, Repr

/-- The LEFT JOIN of one call-log row against `devices` on
`device_id` (`device_id` is the devices primary key, so at most one
row matches): an unmatched call log keeps NULL device fields. -/
def joinDevice (devices : List Device) (l : CallLog) : JoinedRow :=
  match devices.find? (fun d => l.deviceId == some d.deviceId) with
  | some d => ⟨l, d.deviceName, d.phoneNumber⟩
  | none => ⟨l, none, none⟩

/-- `GET /api/call-logs`, SQLite variant: WHERE the conjunctive
filter, LEFT JOIN devices, ORDER BY call_date DESC, LIMIT. -/
def sqliteGetCallLogs (store : List CallLog) (devices : List Device)
    (f : Filter) (lim : Nat) : List JoinedRow :=
  (((store.filter (matchesFilter f)).insertionSort callDateGE).take lim).map
    (joinDevice devices)

/-- `GET /api/call-logs/number/:phoneNumber`, SQLite variant: WHERE
`cl.phone_number = ?`, LEFT JOIN devices, ORDER BY call_date DESC,
LIMIT. -/
def sqliteGetCallLogsByNumber (store : List CallLog) (devices : List Device)
    (number : String) (lim : Nat) : List JoinedRow :=
  (((store.filter (fun l => l.phoneNumber == some number)).insertionSort
    callDateGE).take lim).map (joinDevice devices)

/-! ## Statistics engine: `GET /api/statistics` -/

/-- One row of `callsByType`: `SELECT call_type, COUNT(*) … GROUP BY
call_type` / `$group: {_id: "$callType", count: {$sum: 1}}`. -/
structure TypeCount where
  callType : Option String
  count : Nat
  deriving DecidableEq, Repr

/-- One row of `topContacts`: group by `phone_number`, a
representative `contact_name`, and the group size. -/
structure ContactCount where
  phoneNumber : Option String
  contactName : Option String
  count : Nat
  deriving DecidableEq, Repr

/-- Call-log counts grouped by `callType`: one row per distinct
observed value (NULL included), counting the records carrying it. -/
def callsByType (store : List CallLog) : List TypeCount :=
  (store.map CallLog.callType).dedup.map
    (fun t => ⟨t, (store.map CallLog.callType).count t⟩)

/-- The `topContacts` ordering: sort by `count` descending. -/
def countGE (a b : ContactCount) : Prop :=
  b.count ≤ a.count

instance : DecidableRel countGE := fun a b => by
  unfold countGE; infer_instance

instance : IsTotal ContactCount countGE where
  total a b := Nat.le_total b.count a.count

instance : IsTrans ContactCount countGE where
  trans _ _ _ hab hbc := Nat.le_trans hbc hab

/-- `topContacts`: group the call logs by `phoneNumber` (one row per
distinct observed value), carry one representative `contactName` (the
first record's), count occurrences, sort by count descending, keep
10. -/
def topContacts (store : List CallLog) : List ContactCount :=
  (((store.map CallLog.phoneNumber).dedup.map
    (fun n => (⟨n,
      (store.find? (fun l => l.phoneNumber == n)).bind CallLog.contactName,
      (store.map CallLog.phoneNumber).count n⟩ : ContactCount))).insertionSort
    countGE).take 10

/-- The body of `GET /api/statistics`. -/
structure Statistics where
  totalDevices : Nat
  totalCallLogs : Nat
  callsByType : List TypeCount
  topContacts : List ContactCount
  deriving DecidableEq, Repr

/-- `GET /api/statistics`: total cardinalities plus the two
groupings, over the full current store. -/
def getStatistics (devices : List Device) (store : List CallLog) :
    Statistics :=
  ⟨devices.length, store.length, callsByType store, topContacts store⟩

/-! ## Device heartbeat -/

/-- `POST /api/devices/heartbeat`: SQLite `UPDATE devices SET
last_heartbeat = ? WHERE device_id = ?`; MongoDB `updateOne({deviceId},
{lastHeartbeat: timestamp})` without upsert. Returns the new device
table and the response body `{success: true}` (the handler answers
success whether or not any row matched). -/
def heartbeat (devices : List Device) (deviceId : Option String)
    (ts : Option Int) : List Device × Bool :=
  (devices.map (fun d =>
    if some d.deviceId == deviceId then { d with lastHeartbeat := ts } else d),
   true)

/-- Specification-side reading of the filter semantics: the
conjunction of one independent condition per present filter field;
absent fields contribute nothing. Stated to be compared with
`matchesFilter`, which is transcribed from the handlers. -/
def satisfiesAll (f : Filter) (l : CallLog) : Prop :=
  (truthyStr f.deviceId = true → l.deviceId = f.deviceId) ∧
  (truthyStr f.phoneNumber = true → l.phoneNumber = f.phoneNumber) ∧
  (truthyStr f.callType = true → l.callType = f.callType) ∧
  (∀ s, f.startDate = some s → ∃ c, l.callDate = some c ∧ s ≤ c) ∧
  (∀ e, f.endDate = some e → ∃ c, l.callDate = some c ∧ c ≤ e)

/-- A batch entry with every field absent. -/
def blankSub : LogSubmission :=
  ⟨none, none, none, none, none, none, none⟩

/-- A batch entry carrying a falsy (empty-string) `id` and the falsy
timestamp `0`. -/
def emptyIdSub : LogSubmission :=
  ⟨some "", some "555", none, none, none, none, some 0⟩

/-- A sample stored record used to instantiate theorems. -/
def sampleLog : CallLog :=
  ⟨"k", some "D1", some "111", none, some "missed", some 5, none, 9⟩

/-- A sample filter on `deviceId` and `callType`. -/
def sampleFilter : Filter :=
  ⟨some "D1", none, some "missed", none, none⟩

/-- A sample date-range filter, `startDate = 5`, `endDate = 7`. -/
def sampleDateFilter : Filter :=
  ⟨none, none, none, some 5, some 7⟩

/-- A sample registered device, with an id no sample log references. -/
def sampleDevice : Device :=
  ⟨"D2", some "Pixel", some "777", some 1, some 2⟩

/-- A first submission of record `"k"`, carrying every field,
including `contactName "Ann"`. -/
def resub1 : LogSubmission :=
  ⟨some "k", some "111", some "Ann", some "incoming", some 5, some 9, some 2⟩

/-- A re-submission of record `"k"` with `contactName` and
`callDuration` absent. -/
def resub2 : LogSubmission :=
  ⟨some "k", some "222", none, some "missed", some 6, none, some 3⟩

/-! ## Helper lemmas -/

theorem jsOrStr_of_falsy (o : Option String) (b : String)
    (h : truthyStr o = false) : jsOrStr o b = b := by
  rcases o with _ | s
  · rfl
  · have hs : s = "" := by simpa [truthyStr] using h
    simp [jsOrStr, hs]

theorem filter_upsert_self (store : List CallLog) (r : CallLog) :
    (upsertCallLog store r).filter (fun x => x.id == r.id) = [r] := by
  unfold upsertCallLog
  rw [List.filter_append]
  have h1 : (store.filter (fun x => x.id != r.id)).filter
      (fun x => x.id == r.id) = [] := by
    rw [List.filter_filter]
    apply List.filter_eq_nil_iff.mpr
    intro a _
    cases h : a.id == r.id <;> simp [bne, h]
  rw [h1]
  simp

theorem uniqueIds_upsert (store : List CallLog) (r : CallLog)
    (h : uniqueIds store) : uniqueIds (upsertCallLog store r) := by
  unfold uniqueIds upsertCallLog at *
  rw [List.map_append, List.nodup_append]
  refine ⟨?_, List.nodup_singleton _, ?_⟩
  · exact List.Nodup.sublist
      (List.Sublist.map CallLog.id (List.filter_sublist store)) h
  · intro a ha hb
    have ha' : a = r.id := by simpa using hb
    obtain ⟨x, hx, hxa⟩ := List.mem_map.mp ha
    have := List.of_mem_filter hx
    rw [hxa, ha'] at this
    simp at this

/-! ## Claim theorems: routing surface -/

/-- C1 counterexample: it is not the case that every route of the
spec's interface table is registered by both storage variants — the
MongoDB variant (`server.js`) registers no handler for
`GET /api/call-logs/number/:phoneNumber`, `POST /api/call-logs`, or
`DELETE /api/admin/clear-db`. -/
theorem routes_not_identical :
    ¬ (∀ r ∈ specInterfaceRoutes, r ∈ mongoRoutes ∧ r ∈ sqliteRoutes) := by
  decide

/-- C1 amended: the SQLite variant registers every route of the spec's
interface table with the table's method and path; the MongoDB variant
registers exactly the interface routes other than
`POST /api/call-logs`, `GET /api/call-logs/number/:phoneNumber`, and
`DELETE /api/admin/clear-db`, which it omits. -/
theorem routes_sqlite_complete_mongo_misses_three :
    (∀ r ∈ specInterfaceRoutes, r ∈ sqliteRoutes) ∧
    (∀ r ∈ specInterfaceRoutes,
      (r ∈ mongoRoutes ↔ r ∉ mongoMissingRoutes)) := by
  decide

/-! ## Claim theorems: upsert semantics -/

/-- C2 counterexample: in the MongoDB variant, re-submitting record
`"k"` without a `contactName` does not fully replace the stored
record — the `updateOne` update is a Mongoose `$set` with `undefined`
keys stripped, so the stored record retains the first submission's
`contactName "Ann"` even though the second submission's `contactName`
is absent. -/
theorem mongo_resubmission_retains_absent_fields :
    ((mongoUpsertOne (mongoUpsertOne [] (some "D1") 2 0 resub1)
        (some "D2") 3 0 resub2).filter
      (fun x => x.id == "k")).map CallLog.contactName = [some "Ann"] ∧
    resub2.contactName = none := by
  decide

/-- C2 amended: re-submission with the same truthy `id` leaves at most
one stored record per `id` in both variants. In the SQLite variant
(`INSERT OR REPLACE`) the second submission fully replaces the stored
record: the records with that `id` are exactly the second
submission's materialization. In the MongoDB variant (`updateOne`
upsert whose operator-free update Mongoose casts to a `$set` with
`undefined` keys stripped) the second submission merges into the
record stored by the first: defined fields overwrite, fields absent
from the second submission retain the first submission's values
(`mongoSetMerge`). -/
theorem resubmission_semantics (store : List CallLog)
    (did1 did2 : Option String) (n1 n2 : Int) (k1 k2 : Nat)
    (s1 s2 : LogSubmission)
    (hid : s1.id = s2.id) (ht : truthyStr s1.id = true)
    (hu : uniqueIds store)
    (hfresh : mongoUpsertKey s1 n1 k1 ∉ store.map CallLog.id) :
    ((upsertCallLog (upsertCallLog store (sqliteMaterialize did1 n1 k1 s1))
        (sqliteMaterialize did2 n2 k2 s2)).filter
      (fun x => x.id == (sqliteMaterialize did2 n2 k2 s2).id)
      = [sqliteMaterialize did2 n2 k2 s2]) ∧
    uniqueIds (upsertCallLog
      (upsertCallLog store (sqliteMaterialize did1 n1 k1 s1))
      (sqliteMaterialize did2 n2 k2 s2)) ∧
    ((mongoUpsertOne (mongoUpsertOne store did1 n1 k1 s1)
        did2 n2 k2 s2).filter
      (fun x => x.id == mongoUpsertKey s1 n1 k1)
      = [mongoSetMerge (mongoMaterialize did1 n1 k1 s1) did2 n2 s2]) ∧
    uniqueIds (mongoUpsertOne (mongoUpsertOne store did1 n1 k1 s1)
      did2 n2 k2 s2) := by
  rcases hs1 : s1.id with _ | str
  · rw [hs1] at ht
    simp [truthyStr] at ht
  have hstr : str ≠ "" := by
    rw [hs1] at ht
    simpa [truthyStr] using ht
  have hs2 : s2.id = some str := by rw [← hid, hs1]
  have hkey1 : mongoUpsertKey s1 n1 k1 = str := by
    simp [mongoUpsertKey, hs1, jsOrStr, hstr]
  have hkey2 : mongoUpsertKey s2 n2 k2 = str := by
    simp [mongoUpsertKey, hs2, jsOrStr, hstr]
  have hm1id : (mongoMaterialize did1 n1 k1 s1).id = str := by
    simp [mongoMaterialize, hs1]
  have hfresh' : str ∉ store.map CallLog.id := hkey1 ▸ hfresh
  have hnotin : ∀ x ∈ store, x.id ≠ str := by
    intro x hx he
    exact hfresh' (he ▸ List.mem_map_of_mem CallLog.id hx)
  have hany1 : store.any (fun x => x.id == mongoUpsertKey s1 n1 k1) = false := by
    rw [hkey1]
    apply List.any_eq_false.mpr
    intro x hx
    simpa using hnotin x hx
  have hstep1 : mongoUpsertOne store did1 n1 k1 s1
      = store ++ [mongoMaterialize did1 n1 k1 s1] := by
    simp [mongoUpsertOne, hany1]
  have hany2 : (store ++ [mongoMaterialize did1 n1 k1 s1]).any
      (fun x => x.id == mongoUpsertKey s2 n2 k2) = true := by
    rw [hkey2]
    apply List.any_eq_true.mpr
    exact ⟨mongoMaterialize did1 n1 k1 s1, by simp, by simp [hm1id]⟩
  have hstep2 : mongoUpsertOne (store ++ [mongoMaterialize did1 n1 k1 s1])
      did2 n2 k2 s2
      = store ++ [mongoSetMerge (mongoMaterialize did1 n1 k1 s1) did2 n2 s2] := by
    unfold mongoUpsertOne
    rw [hany2]
    simp only [if_true]
    rw [List.map_append]
    congr 1
    · have hmap : store.map (fun x =>
          if x.id == mongoUpsertKey s2 n2 k2 then mongoSetMerge x did2 n2 s2
          else x) = store.map id := by
        apply List.map_congr_left
        intro x hx
        rw [hkey2]
        simp [hnotin x hx]
      rw [hmap, List.map_id]
    · simp [hm1id, hkey2]
  have hmergeid :
      (mongoSetMerge (mongoMaterialize did1 n1 k1 s1) did2 n2 s2).id = str := by
    simp [mongoSetMerge, hs2]
  refine ⟨filter_upsert_self _ _,
    uniqueIds_upsert _ _ (uniqueIds_upsert _ _ hu), ?_, ?_⟩
  · rw [hstep1, hstep2, hkey1, List.filter_append]
    have hstorefilter : store.filter (fun x => x.id == str) = [] := by
      apply List.filter_eq_nil_iff.mpr
      intro x hx
      simpa using hnotin x hx
    rw [hstorefilter]
    simp [hmergeid]
  · rw [hstep1, hstep2]
    unfold uniqueIds
    rw [List.map_append, List.nodup_append]
    refine ⟨hu, by simp, ?_⟩
    intro a ha hb
    have hastr : a = str := by simpa [hmergeid] using hb
    obtain ⟨x, hx, hxa⟩ := List.mem_map.mp ha
    exact hnotin x hx (by rw [hxa, hastr])

/-- C2 amended witness: submissions `resub1` then `resub2` of record
`"k"` against the empty store, in both variants. -/
theorem resubmission_semantics_witness :
    truthyStr resub1.id = true ∧
    (((upsertCallLog
        (upsertCallLog [] (sqliteMaterialize (some "D1") 2 0 resub1))
        (sqliteMaterialize (some "D2") 3 0 resub2)).filter
      (fun x => x.id == (sqliteMaterialize (some "D2") 3 0 resub2).id)
      = [sqliteMaterialize (some "D2") 3 0 resub2]) ∧
    uniqueIds (upsertCallLog
      (upsertCallLog [] (sqliteMaterialize (some "D1") 2 0 resub1))
      (sqliteMaterialize (some "D2") 3 0 resub2)) ∧
    ((mongoUpsertOne (mongoUpsertOne [] (some "D1") 2 0 resub1)
        (some "D2") 3 0 resub2).filter
      (fun x => x.id == mongoUpsertKey resub1 2 0)
      = [mongoSetMerge (mongoMaterialize (some "D1") 2 0 resub1)
          (some "D2") 3 resub2]) ∧
    uniqueIds (mongoUpsertOne (mongoUpsertOne [] (some "D1") 2 0 resub1)
      (some "D2") 3 0 resub2)) :=
  ⟨by decide,
   resubmission_semantics [] (some "D1") (some "D2") 2 3 0 0 resub1 resub2
     rfl (by decide) (by decide) (by decide)⟩

/-! ## Claim theorems: batch sync identity synthesis -/

theorem applyUpserts_fresh (rs : List CallLog) :
    ∀ store : List CallLog, (rs.map CallLog.id).Nodup →
    (∀ r ∈ rs, r.id ∉ store.map CallLog.id) →
    applyUpserts store rs = store ++ rs := by
  induction rs with
  | nil => intro store _ _; simp [applyUpserts]
  | cons r rs ih =>
    intro store hnodup hfresh
    rw [List.map_cons, List.nodup_cons] at hnodup
    have hstep : upsertCallLog store r = store ++ [r] := by
      unfold upsertCallLog
      congr 1
      apply List.filter_eq_self.mpr
      intro x hx
      have hne : x.id ≠ r.id := by
        intro he
        exact hfresh r (List.mem_cons_self r rs)
          (he ▸ List.mem_map_of_mem CallLog.id hx)
      simpa [bne] using hne
    have htail : applyUpserts store (r :: rs)
        = applyUpserts (upsertCallLog store r) rs := rfl
    rw [htail, hstep, ih (store ++ [r])]
    · simp
    · exact hnodup.2
    · intro x hx
      rw [List.map_append, List.mem_append]
      rintro (hl | hr)
      · exact hfresh x (List.mem_cons_of_mem r hx) hl
      · have hx' : x.id = r.id := by simpa using hr
        exact hnodup.1 (hx' ▸ List.mem_map_of_mem CallLog.id hx)

theorem materializeBatch_ids (did : Option String) (logs : List LogSubmission) :
    ∀ env : List (Int × Nat), (∀ l ∈ logs, l.id = none) →
    env.length ≤ logs.length →
    (materializeBatch (sqliteMaterialize did) env logs).map CallLog.id
        = env.map (fun p => synthId p.1 p.2) ∧
    (materializeBatch (mongoMaterialize did) env logs).map CallLog.id
        = env.map (fun p => synthId p.1 p.2) := by
  induction logs with
  | nil =>
    intro env _ hlen
    have : env = [] := List.length_eq_zero.mp (Nat.le_zero.mp (by simpa using hlen))
    simp [this, materializeBatch]
  | cons l logs ih =>
    intro env hnoid hlen
    rcases env with _ | ⟨e, env⟩
    · simp [materializeBatch]
    · have hl : l.id = none := hnoid l (List.mem_cons_self l logs)
      have hrest := ih env
        (fun x hx => hnoid x (List.mem_cons_of_mem l hx))
        (by simpa using Nat.le_of_succ_le_succ hlen)
      unfold materializeBatch at *
      simp only [List.zip_cons_cons, List.map_cons]
      refine ⟨?_, ?_⟩
      · rw [hrest.1]
        simp [sqliteMaterialize, hl, jsOrStr]
      · rw [hrest.2]
        simp [mongoMaterialize, hl]

/-- C3 counterexample: a batch of two records, both lacking an `id`,
synced against an empty store, where both records observe the same
server millisecond (`Date.now() = 5`) and the same random draw
(`Math.floor(Math.random() * 1000) = 7`): the two synthesized
identities collide and only one record is stored, not two. -/
theorem sync_batch_collision :
    (sqliteSync (some "D") [(5, 7), (5, 7)] [blankSub, blankSub] []).length = 1 ∧
    ([blankSub, blankSub] : List LogSubmission).length = 2 := by
  decide

/-- C3 amended: a batch of N records all lacking an `id` yields N
distinct stored records with pairwise distinct synthesized identities
provided the per-record (server time, random draw) pairs synthesize
pairwise distinct strings — the code draws them from `Date.now()` plus
`Math.random()`, which does not rule collisions out. Holds for both
variants. -/
theorem sync_fresh_batch (did : Option String) (env : List (Int × Nat))
    (logs : List LogSubmission)
    (hlen : env.length = logs.length)
    (hnoid : ∀ l ∈ logs, l.id = none)
    (hfresh : (env.map (fun p => synthId p.1 p.2)).Nodup) :
    ((sqliteSync did env logs []).length = logs.length ∧
      uniqueIds (sqliteSync did env logs [])) ∧
    ((mongoSync did env logs []).length = logs.length ∧
      uniqueIds (mongoSync did env logs [])) := by
  obtain ⟨hsq, hmg⟩ := materializeBatch_ids did logs env hnoid (le_of_eq hlen)
  have hlshort : ∀ mat : Int → Nat → LogSubmission → CallLog,
      (materializeBatch mat env logs).length = logs.length := by
    intro mat
    unfold materializeBatch
    simp [List.length_zip, hlen]
  have happly : ∀ mat : Int → Nat → LogSubmission → CallLog,
      (materializeBatch mat env logs).map CallLog.id
        = env.map (fun p => synthId p.1 p.2) →
      applyUpserts [] (materializeBatch mat env logs)
        = materializeBatch mat env logs := by
    intro mat hids
    have := applyUpserts_fresh (materializeBatch mat env logs) []
      (by rw [hids]; exact hfresh) (by simp)
    simpa using this
  constructor
  · unfold sqliteSync
    rw [happly _ hsq]
    exact ⟨hlshort _, by unfold uniqueIds; rw [hsq]; exact hfresh⟩
  · unfold mongoSync
    rw [happly _ hmg]
    exact ⟨hlshort _, by unfold uniqueIds; rw [hmg]; exact hfresh⟩

/-- C3 amended witness: a two-record batch with distinct (time,
random) draws stores two records with distinct ids, in both
variants. -/
theorem sync_fresh_batch_witness :
    ((sqliteSync (some "D") [(5, 7), (5, 8)] [blankSub, blankSub] []).length = 2 ∧
      uniqueIds (sqliteSync (some "D") [(5, 7), (5, 8)] [blankSub, blankSub] [])) ∧
    ((mongoSync (some "D") [(5, 7), (5, 8)] [blankSub, blankSub] []).length = 2 ∧
      uniqueIds (mongoSync (some "D") [(5, 7), (5, 8)] [blankSub, blankSub] [])) :=
  sync_fresh_batch (some "D") [(5, 7), (5, 8)] [blankSub, blankSub]
    rfl (by decide) (by decide)

/-! ## Query lemmas -/

theorem bool_imp_iff (a b : Bool) : ((!a || b) = true) ↔ (a = true → b = true) := by
  cases a <;> cases b <;> simp

theorem startClause_iff (bound cd : Option Int) :
    startClause bound cd = true ↔
      ∀ s, bound = some s → ∃ c, cd = some c ∧ s ≤ c := by
  rcases bound with _ | s <;> rcases cd with _ | c <;> simp [startClause]

theorem endClause_iff (bound cd : Option Int) :
    endClause bound cd = true ↔
      ∀ e, bound = some e → ∃ c, cd = some c ∧ c ≤ e := by
  rcases bound with _ | e <;> rcases cd with _ | c <;> simp [endClause]

theorem matchesFilter_iff (f : Filter) (l : CallLog) :
    matchesFilter f l = true ↔ satisfiesAll f l := by
  unfold matchesFilter satisfiesAll
  simp only [Bool.and_eq_true, bool_imp_iff, beq_iff_eq, startClause_iff,
    endClause_iff]
  tauto

theorem mem_sortTake (p : CallLog → Bool) (store : List CallLog) (lim : Nat)
    (hlim : store.length ≤ lim) (l : CallLog) :
    (l ∈ ((store.filter p).insertionSort callDateGE).take lim) ↔
      l ∈ store ∧ p l = true := by
  rw [List.take_of_length_le, (List.perm_insertionSort callDateGE _).mem_iff,
    List.mem_filter]
  calc (List.insertionSort callDateGE (store.filter p)).length
      = (store.filter p).length := (List.perm_insertionSort _ _).length_eq
    _ ≤ store.length := List.length_filter_le _ _
    _ ≤ lim := hlim

theorem joinDevice_log (devices : List Device) (l : CallLog) :
    (joinDevice devices l).log = l := by
  unfold joinDevice
  rcases h : devices.find? (fun d => l.deviceId == some d.deviceId) with _ | d <;>
    rw [h]

theorem joinDevice_mem_map (devices : List Device) (l : CallLog)
    (xs : List CallLog) :
    joinDevice devices l ∈ xs.map (joinDevice devices) ↔ l ∈ xs := by
  constructor
  · intro h
    obtain ⟨x, hx, hxl⟩ := List.mem_map.mp h
    have hx' : x = l := by
      have := congrArg JoinedRow.log hxl
      rwa [joinDevice_log, joinDevice_log] at this
    exact hx' ▸ hx
  · exact List.mem_map_of_mem (joinDevice devices)

theorem mem_mongoGetCallLogs (store : List CallLog) (f : Filter) (lim : Nat)
    (hlim : store.length ≤ lim) (l : CallLog) :
    l ∈ mongoGetCallLogs store f lim ↔ l ∈ store ∧ satisfiesAll f l := by
  unfold mongoGetCallLogs
  rw [mem_sortTake _ _ _ hlim, matchesFilter_iff]

theorem mem_sqliteGetCallLogs (store : List CallLog) (devices : List Device)
    (f : Filter) (lim : Nat) (hlim : store.length ≤ lim) (l : CallLog) :
    joinDevice devices l ∈ sqliteGetCallLogs store devices f lim ↔
      l ∈ store ∧ satisfiesAll f l := by
  unfold sqliteGetCallLogs
  rw [joinDevice_mem_map, mem_sortTake _ _ _ hlim, matchesFilter_iff]

/-! ## Claim theorems: query filters -/

/-- C5: in both variants, a record is returned by `GET /api/call-logs`
(limit permitting) exactly when it is stored and satisfies the
conjunction of the present filter fields — each present field is one
independent conjunct, and absent fields impose no constraint
(`satisfiesAll` constrains only present fields). -/
theorem get_call_logs_conjunctive (store : List CallLog)
    (devices : List Device) (f : Filter) (lim : Nat) (l : CallLog)
    (hlim : store.length ≤ lim) :
    (l ∈ mongoGetCallLogs store f lim ↔ l ∈ store ∧ satisfiesAll f l) ∧
    (joinDevice devices l ∈ sqliteGetCallLogs store devices f lim ↔
      l ∈ store ∧ satisfiesAll f l) :=
  ⟨mem_mongoGetCallLogs store f lim hlim l,
   mem_sqliteGetCallLogs store devices f lim hlim l⟩

/-- C5 witness: one stored record, a filter on `deviceId` and
`callType` it satisfies. -/
theorem get_call_logs_conjunctive_witness :
    ([sampleLog] : List CallLog).length ≤ 100 ∧
    ((sampleLog ∈ mongoGetCallLogs [sampleLog] sampleFilter 100 ↔
        sampleLog ∈ [sampleLog] ∧ satisfiesAll sampleFilter sampleLog) ∧
      (joinDevice [] sampleLog ∈ sqliteGetCallLogs [sampleLog] [] sampleFilter 100 ↔
        sampleLog ∈ [sampleLog] ∧ satisfiesAll sampleFilter sampleLog)) :=
  ⟨by decide,
   get_call_logs_conjunctive [sampleLog] [] sampleFilter 100 sampleLog (by decide)⟩

/-- C6: the date-range filter is inclusive at both ends, in both
variants: a stored record whose `callDate` equals `startDate` exactly
(the other bound permitting), or equals `endDate` exactly, is
returned. -/
theorem date_range_inclusive (store : List CallLog) (devices : List Device)
    (f : Filter) (lim : Nat) (l : CallLog) (c : Int)
    (hmem : l ∈ store) (hlim : store.length ≤ lim)
    (hdev : truthyStr f.deviceId = true → l.deviceId = f.deviceId)
    (hph : truthyStr f.phoneNumber = true → l.phoneNumber = f.phoneNumber)
    (hct : truthyStr f.callType = true → l.callType = f.callType)
    (hc : l.callDate = some c)
    (hcase : (f.startDate = some c ∧ ∀ e, f.endDate = some e → c ≤ e) ∨
             (f.endDate = some c ∧ ∀ s, f.startDate = some s → s ≤ c)) :
    l ∈ mongoGetCallLogs store f lim ∧
    joinDevice devices l ∈ sqliteGetCallLogs store devices f lim := by
  have hsat : satisfiesAll f l := by
    refine ⟨hdev, hph, hct, ?_, ?_⟩
    · intro s hs
      rcases hcase with ⟨h1, h2⟩ | ⟨h1, h2⟩
      · rw [h1] at hs
        exact ⟨c, hc, le_of_eq (Option.some.inj hs).symm⟩
      · exact ⟨c, hc, h2 s hs⟩
    · intro e he
      rcases hcase with ⟨h1, h2⟩ | ⟨h1, h2⟩
      · exact ⟨c, hc, h2 e he⟩
      · rw [h1] at he
        exact ⟨c, hc, le_of_eq (Option.some.inj he)⟩
  exact ⟨(mem_mongoGetCallLogs store f lim hlim l).mpr ⟨hmem, hsat⟩,
    (mem_sqliteGetCallLogs store devices f lim hlim l).mpr ⟨hmem, hsat⟩⟩

/-- C6 witness: `callDate = 5`, `startDate = 5`, `endDate = 7`: the
record sits exactly on the lower bound and is returned by both
variants. -/
theorem date_range_inclusive_witness :
    sampleLog ∈ mongoGetCallLogs [sampleLog] sampleDateFilter 100 ∧
    joinDevice [] sampleLog ∈
      sqliteGetCallLogs [sampleLog] [] sampleDateFilter 100 :=
  date_range_inclusive [sampleLog] [] sampleDateFilter 100 sampleLog 5
    (by decide) (by decide) (by decide) (by decide) (by decide) rfl
    (Or.inl ⟨rfl, by intro e he; injection he with he; omega⟩)

/-! ## Claim theorems: device join -/

/-- C4 counterexample: the claim quantifies over
`GET /api/call-logs/number/:phoneNumber` "in both variants", but the
MongoDB variant registers no such route at all (and its
`GET /api/call-logs` is a bare `CallLog.find` whose rows carry no
device fields), so the left-outer-join property cannot hold of both
variants. -/
theorem mongo_lacks_number_route :
    (⟨Method.GET, "/api/call-logs/number/:phoneNumber"⟩ : Route) ∉ mongoRoutes ∧
    (⟨Method.GET, "/api/call-logs/number/:phoneNumber"⟩ : Route) ∈ sqliteRoutes := by
  decide

/-- C4 amended: in the SQLite variant, `GET /api/call-logs` and
`GET /api/call-logs/number/:phoneNumber` are left outer joins of
call_logs against devices on `device_id`: a stored record whose
`deviceId` matches no registered device still appears in the result
(filters and limit permitting), with the joined device fields null. -/
theorem sqlite_left_join_unmatched (store : List CallLog)
    (devices : List Device) (f : Filter) (lim : Nat) (l : CallLog)
    (num : String)
    (hmem : l ∈ store) (hmatch : satisfiesAll f l)
    (hlim : store.length ≤ lim) (hnum : l.phoneNumber = some num)
    (hno : ∀ d ∈ devices, l.deviceId ≠ some d.deviceId) :
    JoinedRow.mk l none none ∈ sqliteGetCallLogs store devices f lim ∧
    JoinedRow.mk l none none ∈
      sqliteGetCallLogsByNumber store devices num lim := by
  have hfind : devices.find? (fun d => l.deviceId == some d.deviceId) = none := by
    apply List.find?_eq_none.mpr
    intro d hd
    simpa using hno d hd
  have hjoin : joinDevice devices l = ⟨l, none, none⟩ := by
    unfold joinDevice
    rw [hfind]
  constructor
  · rw [← hjoin]
    exact (mem_sqliteGetCallLogs store devices f lim hlim l).mpr ⟨hmem, hmatch⟩
  · rw [← hjoin]
    unfold sqliteGetCallLogsByNumber
    rw [joinDevice_mem_map, mem_sortTake _ _ _ hlim]
    exact ⟨hmem, by simp [hnum]⟩

/-- C4 amended witness: one registered device `D2`, one stored log
referencing the unregistered `D1`: the log appears in both SQLite
query results with null device fields. -/
theorem sqlite_left_join_unmatched_witness :
    JoinedRow.mk sampleLog none none ∈
      sqliteGetCallLogs [sampleLog] [sampleDevice] emptyFilter 100 ∧
    JoinedRow.mk sampleLog none none ∈
      sqliteGetCallLogsByNumber [sampleLog] [sampleDevice] "111" 100 :=
  sqlite_left_join_unmatched [sampleLog] [sampleDevice] emptyFilter 100
    sampleLog "111"
    (by decide)
    (by simp [satisfiesAll, emptyFilter, truthyStr])
    (by decide) rfl (by decide)

/-! ## Claim theorems: device heartbeat -/

/-- C9: a heartbeat whose `deviceId` matches no registered device
leaves the device table unchanged and still answers
`{success: true}` — indistinguishable from a successful update. -/
theorem heartbeat_unknown_noop (devices : List Device)
    (i : Option String) (ts : Option Int)
    (h : ∀ d ∈ devices, some d.deviceId ≠ i) :
    heartbeat devices i ts = (devices, true) := by
  unfold heartbeat
  have hmap : devices.map (fun d =>
      if some d.deviceId == i then { d with lastHeartbeat := ts } else d)
      = devices.map id := by
    apply List.map_congr_left
    intro d hd
    have hne := h d hd
    simp [hne]
  rw [hmap, List.map_id]

/-- C9 witness: a populated device table, a heartbeat for an
unregistered id. -/
theorem heartbeat_unknown_noop_witness :
    heartbeat [⟨"A1", some "Pixel", some "777", some 1000, some 1000⟩]
      (some "B2") (some 2000)
      = ([⟨"A1", some "Pixel", some "777", some 1000, some 1000⟩], true) :=
  heartbeat_unknown_noop
    [⟨"A1", some "Pixel", some "777", some 1000, some 1000⟩]
    (some "B2") (some 2000) (by decide)

/-! ## Claim theorems: statistics -/

/-- C7: `totalCallLogs` equals the number of stored call-log records,
and the `callsByType` group counts (null `callType` forming its own
group) sum to `totalCallLogs`, in every store state. -/
theorem optionCount_bridge (t : Option String) (ts : List (Option String)) :
    ts.count t = @List.count _ instBEqOfDecidableEq t ts := by
  induction ts with
  | nil => rfl
  | cons a ts ih =>
    rw [List.count_cons, @List.count_cons _ instBEqOfDecidableEq, ih]
    by_cases h : a = t <;> simp [h]

theorem statistics_counts (devices : List Device) (store : List CallLog) :
    (getStatistics devices store).totalCallLogs = store.length ∧
    ((getStatistics devices store).callsByType.map TypeCount.count).sum
      = (getStatistics devices store).totalCallLogs := by
  refine ⟨rfl, ?_⟩
  show ((callsByType store).map TypeCount.count).sum = store.length
  unfold callsByType
  rw [List.map_map]
  have h := List.sum_map_count_dedup_eq_length (store.map CallLog.callType)
  have hcomp : (TypeCount.count ∘ fun t =>
      TypeCount.mk t ((store.map CallLog.callType).count t))
      = fun t => (store.map CallLog.callType).count t := rfl
  rw [hcomp]
  have h2 : (store.map CallLog.callType).length = store.length :=
    List.length_map _ _
  rw [← h2]
  calc (List.map (fun t => (store.map CallLog.callType).count t)
          (store.map CallLog.callType).dedup).sum
      = (List.map (fun t => @List.count _ instBEqOfDecidableEq t
          (store.map CallLog.callType))
          (store.map CallLog.callType).dedup).sum := by
        rw [List.map_congr_left (fun t _ => optionCount_bridge t _)]
    _ = (store.map CallLog.callType).length := h

/-- C8: for every store state, `topContacts` holds at most 10 entries
(grouped by `phoneNumber`, each with one representative
`contactName`), pairwise sorted by occurrence count descending. -/
theorem top_contacts_bounded_sorted (store : List CallLog) :
    (topContacts store).length ≤ 10 ∧
    (topContacts store).Pairwise countGE := by
  constructor
  · unfold topContacts
    exact List.length_take_le _ _
  · unfold topContacts
    exact List.Pairwise.sublist (List.take_sublist _ _)
      (List.sorted_insertionSort countGE _)

/-! ## Claim theorems: falsy-field defaulting in sync -/

/-- C10 counterexample: in the MongoDB variant, a record submitted
with the falsy empty-string `id` is not stored with a synthesized
identity — the bulk `updateOne` update document assigns
`id: log.id`, so the stored record keeps the empty string verbatim. -/
theorem mongo_keeps_empty_string_id :
    (mongoMaterialize (some "D") 5 7 emptyIdSub).id ≠ synthId 5 7 ∧
    (mongoMaterialize (some "D") 5 7 emptyIdSub).id = "" := by
  decide

/-- C10 amended: during batch sync a falsy `timestamp` (absent or the
integer 0) is replaced by the server-observed time in both variants; a
falsy `id` (absent or empty string) is synthesized in the SQLite
variant and in the MongoDB upsert key, but the MongoDB variant stores
a synthesized `id` only when the submitted `id` is absent — an
empty-string `id` is stored verbatim. -/
theorem falsy_fields_defaulted (did : Option String) (now : Int) (rand : Nat)
    (s : LogSubmission) (hts : s.timestamp = none ∨ s.timestamp = some 0) :
    (sqliteMaterialize did now rand s).timestamp = now ∧
    (mongoMaterialize did now rand s).timestamp = now ∧
    ((s.id = none ∨ s.id = some "") →
      (sqliteMaterialize did now rand s).id = synthId now rand) ∧
    ((s.id = none ∨ s.id = some "") →
      mongoUpsertKey s now rand = synthId now rand) ∧
    (s.id = none →
      (mongoMaterialize did now rand s).id = synthId now rand) := by
  have hts' : jsOrInt s.timestamp now = now := by
    rcases hts with h | h <;> simp [h, jsOrInt]
  refine ⟨hts', hts', ?_, ?_, ?_⟩
  · rintro (h | h) <;> simp [sqliteMaterialize, h, jsOrStr]
  · rintro (h | h) <;> simp [mongoUpsertKey, h, jsOrStr]
  · intro h
    simp [mongoMaterialize, h]

/-- C10 amended witness: a record with `id = ""` and `timestamp = 0`
observed at server time 5 with random draw 7. -/
theorem falsy_fields_defaulted_witness :
    (emptyIdSub.timestamp = none ∨ emptyIdSub.timestamp = some 0) ∧
    ((sqliteMaterialize (some "D") 5 7 emptyIdSub).timestamp = 5 ∧
      (mongoMaterialize (some "D") 5 7 emptyIdSub).timestamp = 5 ∧
      ((emptyIdSub.id = none ∨ emptyIdSub.id = some "") →
        (sqliteMaterialize (some "D") 5 7 emptyIdSub).id = synthId 5 7) ∧
      ((emptyIdSub.id = none ∨ emptyIdSub.id = some "") →
        mongoUpsertKey emptyIdSub 5 7 = synthId 5 7) ∧
      (emptyIdSub.id = none →
        (mongoMaterialize (some "D") 5 7 emptyIdSub).id = synthId 5 7)) :=
  ⟨Or.inr rfl, falsy_fields_defaulted (some "D") 5 7 emptyIdSub (Or.inr rfl)⟩

end CallBackend
